import Mathlib

/-!
Verification of the tarot-bot conversation engine against its design
specification.  The Python sources are shallowly embedded: pure functions
become Lean functions, stateful handlers become explicit state-passing
functions, timestamps are integer seconds, and external collaborators
(the statistical language classifier, the generative-text backend, the
fuzzy resolver and the randomness of card draws) are passed in as
explicit parameters.
-/

set_option maxRecDepth 8192

namespace TarotBot

/-- Finite-state-machine states (src/models/user_session.py, SessionState). -/
inductive SessionState where
  | idle
  | awaitingPayment
  | awaitingQuestion
  | awaitingCustomQuestion
  | awaitingCards
  | processing
deriving DecidableEq, Repr

/-- A completed reading (src/models/user_session.py, Reading).
`rtype` is the Python field `type`; timestamps are integer seconds. -/
structure Reading where
  rtype : String
  cards : List Nat
  question : String
  cardPositions : List String
  interpretation : String
  language : String
  timestamp : Int
deriving DecidableEq, Repr

/-- A user session (src/models/user_session.py, UserSession).
`conversation_context` maps strings to strings (the two keys used by the
handlers, "reading_type" and "custom_question", both hold strings). -/
structure UserSession where
  userId : Int
  language : String
  state : SessionState
  lastReading : Option Reading
  readingCount : Nat
  readingHistory : List Reading
  conversationContext : List (String × String)
  createdAt : Int
  updatedAt : Int
deriving DecidableEq, Repr

/-- Dict write `ctx[k] = v`. -/
def ctxSet (ctx : List (String × String)) (k v : String) : List (String × String) :=
  (ctx.filter (fun p => p.1 != k)) ++ [(k, v)]

/-- Dict read `ctx.get(k)`. -/
def ctxGet (ctx : List (String × String)) (k : String) : Option String :=
  (ctx.find? (fun p => p.1 == k)).map (fun p => p.2)

/-- Dict removal `ctx.pop(k, None)`. -/
def ctxPop (ctx : List (String × String)) (k : String) : List (String × String) :=
  ctx.filter (fun p => p.1 != k)

/-- UserSession.save_reading: append the reading, bump the counter. -/
def saveReading (s : UserSession) (r : Reading) (now : Int) : UserSession :=
  { s with
    lastReading := some r
    readingHistory := s.readingHistory ++ [r]
    readingCount := s.readingCount + 1
    updatedAt := now }

/-- UserSession.is_first_reading. -/
def isFirstReading (s : UserSession) : Bool :=
  s.readingCount == 0

/-- A brand-new session, `UserSession(user_id=uid)` with dataclass defaults. -/
def freshSession (uid : Int) (now : Int) : UserSession :=
  { userId := uid
    language := "en"
    state := .idle
    lastReading := none
    readingCount := 0
    readingHistory := []
    conversationContext := []
    createdAt := now
    updatedAt := now }

/-- The session invariant claimed by the spec. -/
def sessionInvariant (s : UserSession) : Prop :=
  s.readingCount = s.readingHistory.length

instance (s : UserSession) : Decidable (sessionInvariant s) := by
  unfold sessionInvariant; infer_instance

/-! ### In-memory session store (src/services/session_service.py) -/

/-- 24-hour TTL, in seconds (`timedelta(hours=24)`). -/
def ttlSeconds : Int := 86400

/-- Store lookup, dict semantics (`self.sessions.get(user_id)`). -/
def storeLookup (store : List (Int × UserSession)) (uid : Int) : Option UserSession :=
  (store.find? (fun p => p.1 == uid)).map (fun p => p.2)

/-- Store delete (`del self.sessions[user_id]`). -/
def storeErase (store : List (Int × UserSession)) (uid : Int) :
    List (Int × UserSession) :=
  store.filter (fun p => p.1 != uid)

/-- Store write (`self.sessions[user_id] = data`). -/
def storeSet (store : List (Int × UserSession)) (uid : Int) (s : UserSession) :
    List (Int × UserSession) :=
  storeErase store uid ++ [(uid, s)]

/-- InMemorySessionStore.get: purge and return None when the record is
older than the TTL, otherwise return it. -/
def storeGet (store : List (Int × UserSession)) (uid now : Int) :
    Option UserSession × List (Int × UserSession) :=
  match storeLookup store uid with
  | none => (none, store)
  | some d =>
    if now - d.updatedAt > ttlSeconds then (none, storeErase store uid)
    else (some d, store)

/-- SessionService.get_session: stored session if present, else a fresh one. -/
def getSession (store : List (Int × UserSession)) (uid now : Int) :
    UserSession × List (Int × UserSession) :=
  match storeGet store uid now with
  | (some d, st) => (d, st)
  | (none, st) => (freshSession uid now, st)

/-- SessionService.save_session: bump `updated_at`, then write. -/
def saveSession (store : List (Int × UserSession)) (s : UserSession) (now : Int) :
    List (Int × UserSession) :=
  storeSet store s.userId { s with updatedAt := now }

/-- start_command (src/bot/handlers.py): reset the state to Idle but carry
over the old session's language, reading_count and reading_history; save. -/
def startCommand (store : List (Int × UserSession)) (uid now : Int) :
    UserSession × List (Int × UserSession) :=
  let got := getSession store uid now
  let fresh : UserSession :=
    { userId := uid
      language := got.1.language
      state := .idle
      lastReading := none
      readingCount := got.1.readingCount
      readingHistory := got.1.readingHistory
      conversationContext := []
      createdAt := now
      updatedAt := now }
  (fresh, saveSession got.2 fresh now)

/-! ### String primitives mirroring the Python string methods used -/

/-- Unicode simple lowercasing restricted to the ranges the bot touches:
ASCII letters, the basic Cyrillic block А-Я, the block Ѐ-Џ (carrying Ё, Є,
І, Ї) and Ґ.  This is Python's `str.lower()` on every character the
sources compare. -/
def pyLowerChar (c : Char) : Char :=
  if 'A' ≤ c ∧ c ≤ 'Z' then Char.ofNat (c.toNat + 32)
  else if 0x410 ≤ c.toNat ∧ c.toNat ≤ 0x42F then Char.ofNat (c.toNat + 0x20)
  else if 0x400 ≤ c.toNat ∧ c.toNat ≤ 0x40F then Char.ofNat (c.toNat + 0x50)
  else if c.toNat = 0x490 then Char.ofNat 0x491
  else c

/-- Python `str.lower()`. -/
def pyLower (s : String) : String :=
  ⟨s.data.map pyLowerChar⟩

/-- Drop whitespace from both ends of a character list. -/
def stripList (l : List Char) : List Char :=
  ((l.dropWhile Char.isWhitespace).reverse.dropWhile Char.isWhitespace).reverse

/-- Python `str.strip()`. -/
def pyStrip (s : String) : String :=
  ⟨stripList s.data⟩

/-- Tokenizer behind Python `str.split()` (split on whitespace runs,
dropping empty tokens); `acc` holds the current token reversed. -/
def wordsAux : List Char → List Char → List (List Char)
  | [], acc => if acc.isEmpty then [] else [acc.reverse]
  | c :: cs, acc =>
    if c.isWhitespace then
      if acc.isEmpty then wordsAux cs [] else acc.reverse :: wordsAux cs []
    else wordsAux cs (c :: acc)

/-- Python `str.split()` with no separator argument. -/
def pyWords (s : String) : List String :=
  (wordsAux s.data []).map (fun l => ⟨l⟩)

/-- Python `c in s` for a single-character needle. -/
def strHasChar (s : String) (c : Char) : Bool :=
  s.data.contains c

/-- Python `s.count(c)` for a single-character needle. -/
def countChar (s : String) (c : Char) : Nat :=
  (s.data.filter (fun d => d == c)).length

/-- Boolean test that `pat` begins the list `s`. -/
def leadsWith : List Char → List Char → Bool
  | [], _ => true
  | _ :: _, [] => false
  | p :: ps, c :: cs => p == c && leadsWith ps cs

/-- Fueled left-to-right non-overlapping replacement over character lists;
the fuel `s.length` suffices for the non-empty patterns used here. -/
def replaceAllAux : Nat → List Char → List Char → List Char → List Char
  | 0, s, _, _ => s
  | _ + 1, [], _, _ => []
  | fuel + 1, c :: cs, pat, rep =>
    if leadsWith pat (c :: cs) then
      rep ++ replaceAllAux fuel ((c :: cs).drop pat.length) pat rep
    else
      c :: replaceAllAux fuel cs pat rep

/-- Python `s.replace(pat, rep)`. -/
def pyReplace (s pat rep : String) : String :=
  ⟨replaceAllAux s.data.length s.data pat.data rep.data⟩

/-- Python `s.split(",")` (keeps empty fields). -/
def splitCommaAux : List Char → List Char → List (List Char)
  | [], acc => [acc.reverse]
  | c :: cs, acc =>
    if c == ',' then acc.reverse :: splitCommaAux cs []
    else splitCommaAux cs (c :: acc)

/-- Python `s.split(",")`. -/
def splitComma (s : String) : List String :=
  (splitCommaAux s.data []).map (fun l => ⟨l⟩)

/-! ### Language detection (src/bot/middleware.py, LanguageDetector) -/

/-- UKRAINIAN_MARKERS["chars"]. -/
def ukrainianMarkerChars : List Char := ['і', 'ї', 'є', 'ґ']

/-- UKRAINIAN_MARKERS["words"]. -/
def ukrainianMarkerWords : List String :=
  ["чи", "який", "мені", "тобі", "цей", "той", "ця", "та", "ті", "тих"]

/-- RUSSIAN_MARKERS["chars"]. -/
def russianMarkerChars : List Char := ['ы', 'э', 'ъ']

/-- RUSSIAN_MARKERS["words"]. -/
def russianMarkerWords : List String :=
  ["или", "который", "мне", "тебе", "этот", "тот", "эта", "эти", "тех"]

/-- LanguageDetector._has_ukrainian_markers. -/
def hasUkrainianMarkers (text : String) : Bool :=
  ukrainianMarkerChars.any (fun c => strHasChar (pyLower text) c)
    || ukrainianMarkerWords.any (fun w => (pyWords (pyLower text)).contains w)

/-- LanguageDetector._has_russian_markers. -/
def hasRussianMarkers (text : String) : Bool :=
  russianMarkerChars.any (fun c => strHasChar (pyLower text) c)
    || russianMarkerWords.any (fun w => (pyWords (pyLower text)).contains w)

/-- The Ukrainian-unique-character part of the markers on its own. -/
def hasUkrainianUniqueChar (text : String) : Bool :=
  ukrainianMarkerChars.any (fun c => strHasChar (pyLower text) c)

/-- One character of the regex class `[а-яА-ЯёЁіїєґІЇЄҐ]`. -/
def isCyrillicChar (c : Char) : Bool :=
  (0x430 ≤ c.toNat && c.toNat ≤ 0x44F)
    || (0x410 ≤ c.toNat && c.toNat ≤ 0x42F)
    || (['ё', 'Ё', 'і', 'ї', 'є', 'ґ', 'І', 'Ї', 'Є', 'Ґ'] : List Char).contains c

/-- LanguageDetector._is_cyrillic (regex search over the text). -/
def isCyrillicText (text : String) : Bool :=
  text.data.any isCyrillicChar

/-- LanguageDetector._disambiguate_cyrillic.  The float test
`i_count / (i_count + y_count) > 0.3` is modelled exactly over the
integers as `10 * i_count > 3 * (i_count + y_count)`. -/
def disambiguateCyrillic (text : String) : String :=
  if hasUkrainianMarkers text then "uk"
  else if hasRussianMarkers text then "ru"
  else
    let iCount := countChar (pyLower text) 'і'
    let yCount := countChar (pyLower text) 'и'
    if iCount > 0 && (yCount == 0 || 10 * iCount > 3 * (iCount + yCount)) then "uk"
    else "ru"

/-- LanguageDetector.detect_language.  The external statistical classifier
(langdetect's `detect`) is an explicit argument: `Except.error ()` stands
for LangDetectException, `Except.ok v` for a detected code `v`. -/
def detectLanguage (classify : Except Unit String) (text : String)
    (default : String) : String :=
  if text.isEmpty || (pyStrip text).length < 3 then default
  else
    match classify with
    | .error _ =>
      if isCyrillicText text then disambiguateCyrillic text else default
    | .ok detected =>
      if detected == "en" then "en"
      else if detected == "ru" then disambiguateCyrillic text
      else if detected == "uk" then
        if hasRussianMarkers text then "ru" else "uk"
      else if isCyrillicText text then disambiguateCyrillic text
      else default

/-! ### Rate limiter (src/bot/middleware.py, RateLimiter) -/

/-- Window length in seconds. -/
def windowSeconds : Int := 60

/-- Request ceiling per window. -/
def maxRequests : Nat := 5

/-- Lazy pruning: keep only timestamps strictly inside the trailing window. -/
def pruneRequests (reqs : List Int) (now : Int) : List Int :=
  reqs.filter (fun ts => ts > now - windowSeconds)

/-- RateLimiter.is_allowed for one user: takes that user's retained
timestamps and the current time, returns `((admitted, remaining), new
timestamps)`. -/
def rateLimiterAllow (reqs : List Int) (now : Int) : (Bool × Nat) × List Int :=
  let kept := pruneRequests reqs now
  if kept.length < maxRequests then
    ((true, maxRequests - kept.length - 1), kept ++ [now])
  else
    ((false, 0), kept)

/-! ### Deck and entity matching (src/tarot/deck.py, src/models/card.py) -/

/-- A catalog card (src/models/card.py), restricted to the fields the
matcher and the handlers read: the id and the per-language names. -/
structure Card where
  id : Nat
  nameEn : String
  nameRu : String
  nameUk : String
deriving DecidableEq, Repr

/-- Card.get_name: `names.get(language, names["en"])`. -/
def Card.getName (c : Card) (language : String) : String :=
  if language == "ru" then c.nameRu
  else if language == "uk" then c.nameUk
  else c.nameEn

/-- The ordered number-word canonicalization table of
TarotDeck._normalize_card_name (insertion order of the Python dict). -/
def numberVariations : List (String × String) :=
  [("один", "туз"), ("одна", "туз"), ("два", "двойка"), ("две", "двойка"),
   ("три", "тройка"), ("четыре", "четверка"), ("пять", "пятерка"),
   ("шесть", "шестерка"), ("семь", "семерка"), ("восемь", "восьмерка"),
   ("девять", "девятка"), ("десять", "десятка")]

/-- The leading number-word rewrite: for `ru`/`uk`, the first table entry
whose short form plus a space begins the string has that leading
occurrence replaced by the standard form (then the loop breaks). -/
def applyNumberVariations (s : String) (language : String) : String :=
  if language == "ru" || language == "uk" then
    match numberVariations.find? (fun p => leadsWith (p.1.data ++ [' ']) s.data) with
    | some p => ⟨p.2.data ++ [' '] ++ s.data.drop (p.1.data.length + 1)⟩
    | none => s
  else s

/-- The substring-replacement part of the normalization, after
lowercasing and stripping: drop "the ", "карта ", "карт ", then apply the
number-word rewrite. -/
def normalizeSteps (s : String) (language : String) : String :=
  applyNumberVariations
    (pyReplace (pyReplace (pyReplace s "the " "") "карта " "") "карт " "")
    language

/-- TarotDeck._normalize_card_name. -/
def normalizeCardName (name : String) (language : String) : String :=
  normalizeSteps (pyStrip (pyLower name)) language

/-- The exact-name index built by TarotDeck._add_card: each card is keyed
by its LOWERCASED display name (`card.get_name(lang).lower()`, with no
further normalization); a later insertion with the same key overwrites an
earlier one, so lookup scans the reversed insertion order. -/
def indexLookup (catalog : List Card) (language key : String) : Option Card :=
  catalog.reverse.find? (fun c => pyLower (c.getName language) == key)

/-- TarotDeck.get_card_by_name: normalize the query, then consult the
exact-name index. -/
def getCardByName (catalog : List Card) (name language : String) : Option Card :=
  indexLookup catalog language (normalizeCardName name language)

/-- The randomness of `random.sample` is an explicit list of drawn
indices; mapping them through the deck yields the drawn cards. -/
def sampleByIdx (deck : List Card) (idxs : List Nat) : List Card :=
  idxs.filterMap (fun i => deck[i]?)

/-- The count actually passed to `random.sample` by
TarotDeck.draw_random_cards (`if count > len(cards): count = len(cards)`). -/
def clampCount (deck : List Card) (count : Nat) : Nat :=
  if count > deck.length then deck.length else count

/-- A well-formed draw of `random.sample(deck, count)`: exactly `count`
pairwise-distinct in-range positions. -/
def validSample (deck : List Card) (count : Nat) (idxs : List Nat) : Prop :=
  idxs.length = count ∧ idxs.Nodup ∧ ∀ i ∈ idxs, i < deck.length

instance (deck : List Card) (count : Nat) (idxs : List Nat) :
    Decidable (validSample deck count idxs) := by
  unfold validSample; infer_instance

/-- TarotDeck.draw_random_cards with the sampled index list made
explicit: the requested count is clamped to the deck size and
`random.sample` then draws that many positions; a faithful run supplies
`idxs` valid for `clampCount deck count`, in which case the `take` is the
identity. -/
def drawRandomCards (deck : List Card) (count : Nat) (idxs : List Nat) : List Card :=
  sampleByIdx deck (idxs.take (clampCount deck count))

/-- ThreeCardSpread._get_position_names. -/
def threeCardPositionNames (language : String) : List String :=
  if language == "ru" then ["Прошлое", "Настоящее", "Будущее"]
  else if language == "uk" then ["Минуле", "Теперішнє", "Майбутнє"]
  else ["Past", "Present", "Future"]

/-- ThreeCardSpread.draw_cards: three random cards plus position names. -/
def threeCardSpreadDraw (deck : List Card) (language : String) (idxs : List Nat) :
    List Card × List String :=
  (drawRandomCards deck 3 idxs, threeCardPositionNames language)

/-! ### Handlers (src/bot/handlers.py) -/

/-- Outcome of the external generation backend (ai_service): `ok` is a
produced interpretation, `failure` the exception path. -/
inductive GenResult where
  | ok (text : String)
  | failure
deriving DecidableEq, Repr

/-- Observable outcome of one handler turn. -/
inductive TurnOutcome where
  | validationShort
  | validationLong
  | readingDone (r : Reading)
  | aiFailed
  | proceedToCards
  | noCardsRecognized
  | customDone (r : Reading) (unrecognized : List String)
  | customFailed (resolved : List Nat) (unrecognized : List String)
deriving DecidableEq, Repr

/-- Payment decision taken by button_callback when a flow starts. -/
inductive StartAction where
  | waivedVip
  | waivedFirstFree
  | invoiceRequested
deriving DecidableEq, Repr

/-- Config.is_whitelisted: False on an empty allow-list, else membership. -/
def isWhitelisted (whitelist : List Int) (uid : Int) : Bool :=
  whitelist.contains uid

/-- button_callback for "action:ask_question" (`flow = "automated"`) and
"action:explain_combination" (`flow = "custom"`): stash the reading type,
then decide the payment in order — allow-list, first-ever reading, invoice. -/
def startReadingFlow (whitelist : List Int) (s : UserSession) (flow : String)
    (now : Int) : UserSession × StartAction :=
  let s0 := { s with conversationContext := ctxSet s.conversationContext "reading_type" flow }
  let target : SessionState :=
    if flow == "custom" then .awaitingCustomQuestion else .awaitingQuestion
  if isWhitelisted whitelist s.userId then
    ({ s0 with state := target, updatedAt := now }, .waivedVip)
  else if isFirstReading s then
    ({ s0 with state := target, updatedAt := now }, .waivedFirstFree)
  else
    ({ s0 with state := .awaitingPayment, updatedAt := now }, .invoiceRequested)

/-- handle_question_input: validate the question, then draw, generate and
record, or unwind to Idle on a generation failure.  The draw and the
generation result are explicit arguments standing for the card draw and
the AI backend call. -/
def handleQuestionInput (s : UserSession) (question : String)
    (draw : List Card × List String) (gen : GenResult) (now : Int) :
    UserSession × TurnOutcome :=
  if (pyStrip question).length < 5 then (s, .validationShort)
  else if question.length > 500 then (s, .validationLong)
  else
    match gen with
    | .ok interp =>
      let r : Reading :=
        { rtype := "automated"
          cards := draw.1.map (fun c => c.id)
          question := question
          cardPositions := draw.2
          interpretation := interp
          language := s.language
          timestamp := now }
      let s1 := saveReading s r now
      ({ s1 with state := .idle, updatedAt := now }, .readingDone r)
    | .failure =>
      ({ s with state := .idle, updatedAt := now }, .aiFailed)

/-- handle_custom_question_input: validate the question, stash it in the
conversation context and move to AwaitingCards. -/
def handleCustomQuestionInput (s : UserSession) (question : String) (now : Int) :
    UserSession × TurnOutcome :=
  if (pyStrip question).length < 5 then (s, .validationShort)
  else if question.length > 500 then (s, .validationLong)
  else
    ({ s with
        conversationContext := ctxSet s.conversationContext "custom_question" question
        state := .awaitingCards
        updatedAt := now },
     .proceedToCards)

/-- The comma-separated tokens of the cards message, each stripped. -/
def parsedCardNames (cardsText : String) : List String :=
  (splitComma cardsText).map pyStrip

/-- The tokens that resolve, in order (the `cards` list of the handler). -/
def resolvedCards (resolve : String → Option Card) (cardsText : String) : List Card :=
  (parsedCardNames cardsText).filterMap resolve

/-- The tokens that fail to resolve (the `unrecognized_names` list). -/
def unrecognizedNames (resolve : String → Option Card) (cardsText : String) :
    List String :=
  (parsedCardNames cardsText).filter (fun n => (resolve n).isNone)

/-- handle_cards_input: tokenize, resolve each token independently
(`resolve` stands for `get_card_by_name_fuzzy` at threshold 75), reject
when nothing resolves, otherwise generate and record, or unwind to Idle
on a generation failure.  On success the stashed custom question is
popped; on failure it is left in place, as in the source. -/
def handleCardsInput (resolve : String → Option Card) (s : UserSession)
    (cardsText : String) (gen : GenResult) (now : Int) :
    UserSession × TurnOutcome :=
  let customQuestion := (ctxGet s.conversationContext "custom_question").getD ""
  let cards := resolvedCards resolve cardsText
  let unrecognized := unrecognizedNames resolve cardsText
  if cards.isEmpty then (s, .noCardsRecognized)
  else
    match gen with
    | .ok interp =>
      let r : Reading :=
        { rtype := "custom"
          cards := cards.map (fun c => c.id)
          question := customQuestion
          cardPositions := []
          interpretation := interp
          language := s.language
          timestamp := now }
      let s1 := saveReading s r now
      ({ s1 with
          state := .idle
          conversationContext := ctxPop s1.conversationContext "custom_question"
          updatedAt := now },
       .customDone r unrecognized)
    | .failure =>
      ({ s with state := .idle, updatedAt := now },
       .customFailed (cards.map (fun c => c.id)) unrecognized)

/-! ### Concrete sample data used by the witnesses -/

/-- A sample reading used as concrete input. -/
def demoReading : Reading :=
  { rtype := "automated"
    cards := [0, 1, 2]
    question := "will it rain"
    cardPositions := ["Past", "Present", "Future"]
    interpretation := "yes"
    language := "en"
    timestamp := 0 }

/-- A sample session with one completed reading. -/
def demoSession : UserSession :=
  saveReading (freshSession 7 0) demoReading 1

/-! ### Claims -/

/-- C1: every session-mutating operation preserves the invariant
`reading_count = length reading_history`: `save_reading` appends exactly
one reading and increments the counter by exactly one; the `/start` reset
carries the old count and history over together; a brand-new session
satisfies the invariant; and every handler step (flow start, question
handlers, cards handler) preserves it. -/
theorem c1_reading_invariant :
    (∀ (s : UserSession) (r : Reading) (now : Int),
        (saveReading s r now).readingHistory = s.readingHistory ++ [r] ∧
        (saveReading s r now).readingCount = s.readingCount + 1) ∧
    (∀ (s : UserSession) (r : Reading) (now : Int),
        sessionInvariant s → sessionInvariant (saveReading s r now)) ∧
    (∀ (uid now : Int), sessionInvariant (freshSession uid now)) ∧
    (∀ (store : List (Int × UserSession)) (uid now : Int),
        (∀ d, storeLookup store uid = some d → sessionInvariant d) →
        sessionInvariant (startCommand store uid now).1) ∧
    (∀ (whitelist : List Int) (s : UserSession) (flow : String) (now : Int),
        sessionInvariant s →
        sessionInvariant (startReadingFlow whitelist s flow now).1) ∧
    (∀ (s : UserSession) (q : String) (draw : List Card × List String)
        (g : GenResult) (now : Int),
        sessionInvariant s →
        sessionInvariant (handleQuestionInput s q draw g now).1) ∧
    (∀ (s : UserSession) (q : String) (now : Int),
        sessionInvariant s →
        sessionInvariant (handleCustomQuestionInput s q now).1) ∧
    (∀ (resolve : String → Option Card) (s : UserSession) (t : String)
        (g : GenResult) (now : Int),
        sessionInvariant s →
        sessionInvariant (handleCardsInput resolve s t g now).1) := by
  refine ⟨?_, ?_, ?_, ?_, ?_, ?_, ?_, ?_⟩
  · intro s r now
    exact ⟨rfl, rfl⟩
  · intro s r now h
    simp [sessionInvariant, saveReading] at h ⊢
    omega
  · intro uid now
    simp [sessionInvariant, freshSession]
  · intro store uid now h
    have hg : sessionInvariant (getSession store uid now).1 := by
      unfold getSession storeGet
      cases hl : storeLookup store uid with
      | none => simp [sessionInvariant, freshSession]
      | some d =>
        by_cases hexp : now - d.updatedAt > ttlSeconds
        · simp [hexp, sessionInvariant, freshSession]
        · simpa [hexp] using h d hl
    unfold startCommand
    simpa [sessionInvariant] using hg
  · intro whitelist s flow now h
    unfold startReadingFlow
    by_cases h1 : isWhitelisted whitelist s.userId
    · simpa [h1, sessionInvariant] using h
    · by_cases h2 : isFirstReading s
      · simpa [h1, h2, sessionInvariant] using h
      · simpa [h1, h2, sessionInvariant] using h
  · intro s q draw g now h
    unfold handleQuestionInput
    by_cases h1 : (pyStrip q).length < 5
    · simpa [h1] using h
    · by_cases h2 : q.length > 500
      · simpa [h1, h2] using h
      · cases g with
        | ok interp =>
          simp [h1, h2, sessionInvariant, saveReading] at h ⊢
          omega
        | failure => simpa [h1, h2, sessionInvariant] using h
  · intro s q now h
    unfold handleCustomQuestionInput
    by_cases h1 : (pyStrip q).length < 5
    · simpa [h1] using h
    · by_cases h2 : q.length > 500
      · simpa [h1, h2] using h
      · simpa [h1, h2, sessionInvariant] using h
  · intro resolve s t g now h
    unfold handleCardsInput
    by_cases h1 : (resolvedCards resolve t).isEmpty
    · simpa [h1] using h
    · cases g with
      | ok interp =>
        simp [h1, sessionInvariant, saveReading] at h ⊢
        omega
      | failure => simpa [h1, sessionInvariant] using h

/-- Witness for C1 at a concrete session and reading. -/
theorem c1_reading_invariant_witness :
    sessionInvariant (saveReading (freshSession 7 0) demoReading 1) :=
  c1_reading_invariant.2.1 (freshSession 7 0) demoReading 1
    (c1_reading_invariant.2.2.1 7 0)

/-- C2: in AwaitingQuestion and AwaitingCustomQuestion, a question whose
trimmed length is below 5 is rejected with the short-question error and
the session is returned unchanged; otherwise a question whose raw length
exceeds 500 is rejected with the long-question error, session unchanged;
a question with trimmed length at least 5 and raw length at most 500
(including the boundaries 5 and 500) is accepted and the flow proceeds. -/
theorem c2_question_validation :
    ∀ (s : UserSession) (q : String) (draw : List Card × List String)
      (g : GenResult) (now : Int),
      ((pyStrip q).length < 5 →
        handleQuestionInput s q draw g now = (s, .validationShort) ∧
        handleCustomQuestionInput s q now = (s, .validationShort)) ∧
      (¬ (pyStrip q).length < 5 → q.length > 500 →
        handleQuestionInput s q draw g now = (s, .validationLong) ∧
        handleCustomQuestionInput s q now = (s, .validationLong)) ∧
      (5 ≤ (pyStrip q).length → q.length ≤ 500 →
        (handleQuestionInput s q draw g now).2 ≠ .validationShort ∧
        (handleQuestionInput s q draw g now).2 ≠ .validationLong ∧
        (handleCustomQuestionInput s q now).1.state = .awaitingCards ∧
        (handleCustomQuestionInput s q now).2 = .proceedToCards) := by
  intro s q draw g now
  refine ⟨?_, ?_, ?_⟩
  · intro h1
    constructor
    · unfold handleQuestionInput; simp [h1]
    · unfold handleCustomQuestionInput; simp [h1]
  · intro h1 h2
    constructor
    · unfold handleQuestionInput; simp [h1, h2]
    · unfold handleCustomQuestionInput; simp [h1, h2]
  · intro h1 h2
    have h1' : ¬ (pyStrip q).length < 5 := by omega
    have h2' : ¬ q.length > 500 := by omega
    refine ⟨?_, ?_, ?_, ?_⟩
    · unfold handleQuestionInput
      cases g with
      | ok interp => simp [h1', h2']
      | failure => simp [h1', h2']
    · unfold handleQuestionInput
      cases g with
      | ok interp => simp [h1', h2']
      | failure => simp [h1', h2']
    · unfold handleCustomQuestionInput; simp [h1', h2']
    · unfold handleCustomQuestionInput; simp [h1', h2']

/-- Witness for C2 at the boundary questions: trimmed length exactly 5
is accepted, length 4 is rejected short, and a 501-character question is
rejected long. -/
theorem c2_question_validation_witness :
    (handleCustomQuestionInput demoSession "hello" 2).1.state = .awaitingCards ∧
    handleQuestionInput demoSession "hi y" ([], []) .failure 2 =
      (demoSession, .validationShort) ∧
    handleQuestionInput demoSession ⟨List.replicate 501 'a'⟩ ([], []) .failure 2 =
      (demoSession, .validationLong) :=
  ⟨((c2_question_validation demoSession "hello" ([], []) .failure 2).2.2
      (by decide) (by decide)).2.2.1,
   ((c2_question_validation demoSession "hi y" ([], []) .failure 2).1
      (by decide)).1,
   ((c2_question_validation demoSession ⟨List.replicate 501 'a'⟩ ([], []) .failure 2).2.1
      (by decide) (by decide)).1⟩

/-- C3: starting a reading flow from Idle decides payment in order with
first match winning: an allow-listed user is waived (even with a positive
reading count) and moves to the question state of the flow; otherwise a
user with reading_count = 0 is waived the same way; otherwise the session
moves to AwaitingPayment and an invoice is requested. -/
theorem c3_payment_waiver :
    ∀ (whitelist : List Int) (s : UserSession) (flow : String) (now : Int),
      (isWhitelisted whitelist s.userId = true →
        (startReadingFlow whitelist s flow now).2 = .waivedVip ∧
        (startReadingFlow whitelist s flow now).1.state =
          (if flow == "custom" then SessionState.awaitingCustomQuestion
           else SessionState.awaitingQuestion)) ∧
      (isWhitelisted whitelist s.userId = false → s.readingCount = 0 →
        (startReadingFlow whitelist s flow now).2 = .waivedFirstFree ∧
        (startReadingFlow whitelist s flow now).1.state =
          (if flow == "custom" then SessionState.awaitingCustomQuestion
           else SessionState.awaitingQuestion)) ∧
      (isWhitelisted whitelist s.userId = false → 0 < s.readingCount →
        (startReadingFlow whitelist s flow now).2 = .invoiceRequested ∧
        (startReadingFlow whitelist s flow now).1.state =
          SessionState.awaitingPayment) := by
  intro whitelist s flow now
  refine ⟨?_, ?_, ?_⟩
  · intro h1
    unfold startReadingFlow
    by_cases hf : flow == "custom" <;> simp [h1, hf]
  · intro h1 h2
    have hf : isFirstReading s = true := by
      simp [isFirstReading, h2]
    unfold startReadingFlow
    by_cases hc : flow == "custom" <;> simp [h1, hf, hc]
  · intro h1 h2
    have hf : isFirstReading s = false := by
      simp [isFirstReading]
      omega
    unfold startReadingFlow
    simp [h1, hf]

/-- Witness for C3: an allow-listed user with one prior reading is still
waived, and a non-allow-listed user with one prior reading is charged. -/
theorem c3_payment_waiver_witness :
    (startReadingFlow [7] demoSession "automated" 2).2 = .waivedVip ∧
    (startReadingFlow [9] demoSession "custom" 2).2 = .invoiceRequested ∧
    (startReadingFlow [9] demoSession "custom" 2).1.state =
      SessionState.awaitingPayment :=
  ⟨((c3_payment_waiver [7] demoSession "automated" 2).1 (by decide)).1,
   ((c3_payment_waiver [9] demoSession "custom" 2).2.2 (by decide) (by decide)).1,
   ((c3_payment_waiver [9] demoSession "custom" 2).2.2 (by decide) (by decide)).2⟩

/-- C4 as stated is false: on the path where the classifier's verdict is
"uk", detect_language checks the RUSSIAN markers first, so the text
"іїы" — which contains the Ukrainian-unique characters і and ї — is
classified "ru" because it also contains the Russian-unique character ы. -/
theorem c4_priority_counterexample :
    hasUkrainianUniqueChar "іїы" = true ∧
    detectLanguage (Except.ok "uk") "іїы" "en" = "ru" := by
  decide

/-- C4 amended: for a Cyrillic-script text (long enough to be analysed)
containing a Ukrainian-unique character, the priority "langA characters
first" holds on every path that runs the marker disambiguation — a
classifier verdict of "ru", any verdict other than "en"/"ru"/"uk", and a
classifier failure all yield "uk" regardless of Russian markers; but on
the verdict-"uk" path the Russian-marker check runs first, so the result
is "ru" exactly when a Russian marker is present and "uk" otherwise. -/
theorem c4_disambiguation_priority :
    ∀ (text default detected : String),
      hasUkrainianUniqueChar text = true →
      isCyrillicText text = true →
      text.isEmpty = false →
      ¬ (pyStrip text).length < 3 →
      disambiguateCyrillic text = "uk" ∧
      detectLanguage (Except.error ()) text default = "uk" ∧
      (detected = "ru" → detectLanguage (Except.ok detected) text default = "uk") ∧
      (detected ≠ "en" → detected ≠ "ru" → detected ≠ "uk" →
        detectLanguage (Except.ok detected) text default = "uk") ∧
      (hasRussianMarkers text = false →
        detectLanguage (Except.ok "uk") text default = "uk") ∧
      (hasRussianMarkers text = true →
        detectLanguage (Except.ok "uk") text default = "ru") := by
  intro text default detected huk hcyr hne hlen
  have hm : hasUkrainianMarkers text = true := by
    unfold hasUkrainianMarkers
    unfold hasUkrainianUniqueChar at huk
    simp only [Bool.or_eq_true]
    exact Or.inl huk
  have hd : disambiguateCyrillic text = "uk" := by
    unfold disambiguateCyrillic
    simp [hm]
  refine ⟨hd, ?_, ?_, ?_, ?_, ?_⟩
  · unfold detectLanguage
    simp [hne, hlen, hcyr, hd]
  · intro hdet
    subst hdet
    unfold detectLanguage
    simp [hne, hlen, hd]
  · intro h1 h2 h3
    unfold detectLanguage
    simp [hne, hlen, h1, h2, h3, hcyr, hd]
  · intro hrm
    unfold detectLanguage
    simp [hne, hlen, hrm]
  · intro hrm
    unfold detectLanguage
    simp [hne, hlen, hrm]

/-- Witness for the amended C4 at the text "іїє": the classifier-failure
path and the verdict-"uk" path (no Russian markers) both give "uk". -/
theorem c4_disambiguation_priority_witness :
    detectLanguage (Except.error ()) "іїє" "en" = "uk" ∧
    detectLanguage (Except.ok "uk") "іїє" "en" = "uk" :=
  ⟨(c4_disambiguation_priority "іїє" "en" "xx"
      (by decide) (by decide) (by decide) (by decide)).2.1,
   (c4_disambiguation_priority "іїє" "en" "xx"
      (by decide) (by decide) (by decide) (by decide)).2.2.2.2.1 (by decide)⟩

/-- The Fool, as named in the catalog. -/
def foolCard : Card :=
  { id := 0, nameEn := "The Fool", nameRu := "Дурак", nameUk := "Дурень" }

/-- The Sun (a name untouched by the query-side normalization). -/
def sunCard : Card :=
  { id := 19, nameEn := "Sun", nameRu := "Солнце", nameUk := "Сонце" }

/-- C5 as stated is false: the exact-name index stores only the
LOWERCASED catalog name, while the query is additionally stripped of
filler prefixes, so the exact catalog name "The Fool" — submitted
verbatim, with its catalog casing and no extra whitespace — is reduced to
the key "fool", misses the index entry "the fool", and the exact-match
step returns nothing. -/
theorem c5_exact_match_counterexample :
    pyLower (foolCard.getName "en") = "the fool" ∧
    normalizeCardName "The Fool" "en" = "fool" ∧
    getCardByName [foolCard] "The Fool" "en" = none := by
  decide

/-- C5 amended: the exact-match step applies the full normalization only
to the query and bare lowercasing to the indexed names; hence an
exact-name query in any casing and surrounding whitespace resolves via
the exact-match step precisely for cards whose lowercased name is a fixed
point of the filler-prefix stripping and number-word canonicalization
(and is not shadowed in the index) — cards with a filler prefix in their
name, such as "The Fool", are missed by this step and only reachable
through fuzzy matching. -/
theorem c5_exact_match_fixed_point :
    ∀ (catalog : List Card) (c : Card) (language query : String),
      pyStrip (pyLower query) = pyLower (c.getName language) →
      normalizeSteps (pyLower (c.getName language)) language =
        pyLower (c.getName language) →
      indexLookup catalog language (pyLower (c.getName language)) = some c →
      getCardByName catalog query language = some c := by
  intro catalog c language query hq hinv hlook
  unfold getCardByName normalizeCardName
  rw [hq, hinv, hlook]

/-- Witness for the amended C5: the query "  SUN  " resolves to the Sun
card through the exact-match step. -/
theorem c5_exact_match_fixed_point_witness :
    getCardByName [foolCard, sunCard] "  SUN  " "en" = some sunCard :=
  c5_exact_match_fixed_point [foolCard, sunCard] sunCard "en" "  SUN  "
    (by decide) (by decide) (by decide)

/-- A concrete resolver recognising only the Sun card, standing for the
fuzzy matcher in the witnesses. -/
def demoResolve (n : String) : Option Card :=
  if n == "Sun" then some sunCard else none

/-- C6: the comma-separated cards input is tokenized and each token is
resolved independently; with zero resolved tokens the whole turn is
rejected and the session is returned unchanged (so it stays in
AwaitingCards); with at least one resolved token the turn proceeds with
exactly the resolved cards, and the unresolved tokens are reported back
as the unrecognized set, on the success path and the failure path alike. -/
theorem c6_multi_entity_resolution :
    ∀ (resolve : String → Option Card) (s : UserSession) (cardsText : String)
      (g : GenResult) (now : Int),
      (resolvedCards resolve cardsText = [] →
        handleCardsInput resolve s cardsText g now = (s, .noCardsRecognized)) ∧
      (resolvedCards resolve cardsText ≠ [] →
        (∀ interp, g = .ok interp →
          ∃ r, (handleCardsInput resolve s cardsText g now).2 =
              .customDone r (unrecognizedNames resolve cardsText) ∧
            r.cards = (resolvedCards resolve cardsText).map (fun c => c.id)) ∧
        (g = .failure →
          (handleCardsInput resolve s cardsText g now).2 =
            .customFailed ((resolvedCards resolve cardsText).map (fun c => c.id))
              (unrecognizedNames resolve cardsText))) := by
  intro resolve s cardsText g now
  constructor
  · intro hempty
    unfold handleCardsInput
    simp [hempty]
  · intro hne
    have hfull : (resolvedCards resolve cardsText).isEmpty = false := by
      simpa [List.isEmpty_iff] using hne
    constructor
    · intro interp hg
      subst hg
      unfold handleCardsInput
      simp only [hfull]
      exact ⟨_, rfl, rfl⟩
    · intro hg
      subst hg
      unfold handleCardsInput
      simp [hfull]

/-- Witness for C6 on "Sun, Moonn, zzz": one token resolves, the other
two are reported unrecognized, and the turn succeeds. -/
theorem c6_multi_entity_resolution_witness :
    ∃ r, (handleCardsInput demoResolve demoSession "Sun, Moonn, zzz"
            (.ok "text") 3).2 =
        .customDone r (unrecognizedNames demoResolve "Sun, Moonn, zzz") ∧
      r.cards = (resolvedCards demoResolve "Sun, Moonn, zzz").map (fun c => c.id) :=
  ((c6_multi_entity_resolution demoResolve demoSession "Sun, Moonn, zzz"
      (.ok "text") 3).2 (by decide)).1 "text" rfl

/-- C7: when the generation backend fails, both the automated-flow
handler (after its question validation passed) and the custom-flow cards
handler (after at least one card resolved) return the session with its
state forced to Idle, the reading history and the reading count exactly
as before — no Reading is recorded — and report the failure outcome; in
particular the session is left neither in Processing nor in
AwaitingCards. -/
theorem c7_upstream_failure_unwinds :
    ∀ (s : UserSession) (q : String) (draw : List Card × List String)
      (resolve : String → Option Card) (cardsText : String) (now : Int),
      (¬ (pyStrip q).length < 5 → ¬ q.length > 500 →
        handleQuestionInput s q draw .failure now =
          ({ s with state := .idle, updatedAt := now }, .aiFailed)) ∧
      (resolvedCards resolve cardsText ≠ [] →
        handleCardsInput resolve s cardsText .failure now =
          ({ s with state := .idle, updatedAt := now },
           .customFailed ((resolvedCards resolve cardsText).map (fun c => c.id))
             (unrecognizedNames resolve cardsText))) := by
  intro s q draw resolve cardsText now
  constructor
  · intro h1 h2
    unfold handleQuestionInput
    simp [h1, h2]
  · intro hne
    have hfull : (resolvedCards resolve cardsText).isEmpty = false := by
      simpa [List.isEmpty_iff] using hne
    unfold handleCardsInput
    simp [hfull]

/-- Witness for C7: a failed generation on a valid question leaves the
demo session idle with its single-reading history intact. -/
theorem c7_upstream_failure_unwinds_witness :
    handleQuestionInput demoSession "will it rain" ([], []) .failure 9 =
      ({ demoSession with state := .idle, updatedAt := 9 }, .aiFailed) ∧
    handleCardsInput demoResolve demoSession "Sun" .failure 9 =
      ({ demoSession with state := .idle, updatedAt := 9 },
       .customFailed ((resolvedCards demoResolve "Sun").map (fun c => c.id))
         (unrecognizedNames demoResolve "Sun")) :=
  ⟨(c7_upstream_failure_unwinds demoSession "will it rain" ([], [])
      demoResolve "Sun" 9).1 (by decide) (by decide),
   (c7_upstream_failure_unwinds demoSession "will it rain" ([], [])
      demoResolve "Sun" 9).2 (by decide)⟩

/-- C8: a request is admitted iff the count of timestamps retained inside
the trailing 60-second window is below the ceiling 5, in which case the
timestamp is recorded and `remaining = 5 - count - 1` is returned, and
otherwise `(false, 0)` is returned with no timestamp recorded; in the
concrete six-request trace inside one window the remaining values are
4,3,2,1,0, the sixth request is rejected without recording, and a request
after the window has passed is admitted again. -/
theorem c8_sliding_window :
    (∀ (reqs : List Int) (now : Int),
        ((rateLimiterAllow reqs now).1.1 = true ↔
          (pruneRequests reqs now).length < maxRequests) ∧
        ((pruneRequests reqs now).length < maxRequests →
          rateLimiterAllow reqs now =
            ((true, maxRequests - (pruneRequests reqs now).length - 1),
             pruneRequests reqs now ++ [now])) ∧
        (¬ (pruneRequests reqs now).length < maxRequests →
          rateLimiterAllow reqs now = ((false, 0), pruneRequests reqs now))) ∧
    (rateLimiterAllow [] 0 = ((true, 4), [0]) ∧
     rateLimiterAllow [0] 1 = ((true, 3), [0, 1]) ∧
     rateLimiterAllow [0, 1] 2 = ((true, 2), [0, 1, 2]) ∧
     rateLimiterAllow [0, 1, 2] 3 = ((true, 1), [0, 1, 2, 3]) ∧
     rateLimiterAllow [0, 1, 2, 3] 4 = ((true, 0), [0, 1, 2, 3, 4]) ∧
     rateLimiterAllow [0, 1, 2, 3, 4] 5 = ((false, 0), [0, 1, 2, 3, 4]) ∧
     rateLimiterAllow [0, 1, 2, 3, 4] 70 = ((true, 4), [70])) := by
  constructor
  · intro reqs now
    unfold rateLimiterAllow
    by_cases h : (pruneRequests reqs now).length < maxRequests <;> simp [h]
  · decide

/-- Witness for C8 applying the general admission rule at a concrete
history of two in-window timestamps. -/
theorem c8_sliding_window_witness :
    rateLimiterAllow [10, 20] 30 =
      ((true, maxRequests - (pruneRequests [10, 20] 30).length - 1),
       pruneRequests [10, 20] 30 ++ [30]) :=
  (c8_sliding_window.1 [10, 20] 30).2.1 (by decide)

/-- C9: a stored record whose `updated_at` is older than the 24-hour TTL
at the time of the next get is purged — the store-level get returns
absent and deletes the record — and the service-level get_session then
returns a freshly created Idle session with reading count 0 for that
user id. -/
theorem c9_ttl_expiry :
    ∀ (store : List (Int × UserSession)) (uid now : Int) (d : UserSession),
      storeLookup store uid = some d →
      now - d.updatedAt > ttlSeconds →
      storeGet store uid now = (none, storeErase store uid) ∧
      storeLookup (storeErase store uid) uid = none ∧
      getSession store uid now = (freshSession uid now, storeErase store uid) ∧
      (freshSession uid now).state = .idle ∧
      (freshSession uid now).readingCount = 0 ∧
      (freshSession uid now).userId = uid := by
  intro store uid now d hl hexp
  have hget : storeGet store uid now = (none, storeErase store uid) := by
    unfold storeGet
    rw [hl]
    simp [hexp]
  refine ⟨hget, ?_, ?_, rfl, rfl, rfl⟩
  · unfold storeLookup storeErase
    have hnone : (store.filter (fun p => p.1 != uid)).find?
        (fun p => p.1 == uid) = none := by
      rw [List.find?_eq_none]
      intro p hp
      have h1 : (p.1 != uid) = true := (List.mem_filter.mp hp).2
      simpa using h1
    rw [hnone]
    rfl
  · unfold getSession
    rw [hget]

/-- Witness for C9: the demo session, last written at time 1, is expired
and purged at time 90000, and the service hands back a fresh session. -/
theorem c9_ttl_expiry_witness :
    getSession [(7, demoSession)] 7 90000 =
      (freshSession 7 90000, storeErase [(7, demoSession)] 7) ∧
    storeLookup (storeErase [(7, demoSession)] 7) 7 = none :=
  ⟨(c9_ttl_expiry [(7, demoSession)] 7 90000 demoSession
      (by decide) (by decide)).2.2.1,
   (c9_ttl_expiry [(7, demoSession)] 7 90000 demoSession
      (by decide) (by decide)).2.1⟩

/-- Membership in a sampled draw comes from some drawn index. -/
lemma mem_sampleByIdx {deck : List Card} {idxs : List Nat} {x : Card} :
    x ∈ sampleByIdx deck idxs ↔ ∃ i ∈ idxs, deck[i]? = some x := by
  simp [sampleByIdx, List.mem_filterMap]

/-- A draw over in-range indices has one card per index. -/
lemma sampleByIdx_length {deck : List Card} {idxs : List Nat}
    (hb : ∀ i ∈ idxs, i < deck.length) :
    (sampleByIdx deck idxs).length = idxs.length := by
  induction idxs with
  | nil => rfl
  | cons i is ih =>
    have hi : i < deck.length := hb i (by simp)
    have hsome : deck[i]? = some deck[i] := List.getElem?_eq_getElem hi
    simp only [sampleByIdx, List.filterMap_cons, hsome]
    have := ih (fun j hj => hb j (List.mem_cons_of_mem _ hj))
    simp only [sampleByIdx] at this
    simp [this]

/-- Every sampled card is a member of the deck. -/
lemma sampleByIdx_subset {deck : List Card} {idxs : List Nat} :
    ∀ x ∈ sampleByIdx deck idxs, x ∈ deck := by
  intro x hx
  obtain ⟨i, _, hi⟩ := mem_sampleByIdx.mp hx
  exact List.getElem?_mem hi

/-- Sampling distinct positions of a duplicate-free deck yields
pairwise-distinct cards. -/
lemma sampleByIdx_nodup {deck : List Card} {idxs : List Nat}
    (hd : deck.Nodup) (hn : idxs.Nodup) (hb : ∀ i ∈ idxs, i < deck.length) :
    (sampleByIdx deck idxs).Nodup := by
  induction idxs with
  | nil => simp [sampleByIdx]
  | cons i is ih =>
    have hi : i < deck.length := hb i (by simp)
    have hsome : deck[i]? = some deck[i] := List.getElem?_eq_getElem hi
    have hrest : (sampleByIdx deck is).Nodup :=
      ih (List.Nodup.of_cons hn) (fun j hj => hb j (List.mem_cons_of_mem _ hj))
    simp only [sampleByIdx, List.filterMap_cons, hsome]
    refine List.nodup_cons.mpr ⟨?_, hrest⟩
    intro hmem
    obtain ⟨j, hjmem, hjeq⟩ := mem_sampleByIdx.mp hmem
    have hij : i = j := by
      refine List.getElem?_inj hi hd ?_
      rw [hsome, hjeq]
    exact (List.nodup_cons.mp hn).1 (hij ▸ hjmem)

/-- The clamp applied to the requested count is exactly `min`. -/
lemma clampCount_eq_min (deck : List Card) (count : Nat) :
    clampCount deck count = min count deck.length := by
  unfold clampCount
  split <;> omega

/-- C10: for every requested count and deck, a faithful draw (the
sampled indices are pairwise distinct, in range, and as many as the
clamped count) returns exactly `min count (deck size)` cards, all deck
members, pairwise distinct whenever the deck is duplicate-free — the
requested count is silently clamped, never an error; consequently the
three cards of a three-card spread over a deck of at least three distinct
cards are three pairwise-distinct deck members. -/
theorem c10_draw_without_replacement :
    (∀ (deck : List Card) (count : Nat) (idxs : List Nat),
        validSample deck (clampCount deck count) idxs →
        (drawRandomCards deck count idxs).length = min count deck.length ∧
        (∀ x ∈ drawRandomCards deck count idxs, x ∈ deck) ∧
        (deck.Nodup → (drawRandomCards deck count idxs).Nodup)) ∧
    (∀ (deck : List Card) (language : String) (idxs : List Nat),
        deck.Nodup → 3 ≤ deck.length →
        validSample deck (clampCount deck 3) idxs →
        (threeCardSpreadDraw deck language idxs).1.length = 3 ∧
        (threeCardSpreadDraw deck language idxs).1.Nodup ∧
        ∀ x ∈ (threeCardSpreadDraw deck language idxs).1, x ∈ deck) := by
  have main : ∀ (deck : List Card) (count : Nat) (idxs : List Nat),
      validSample deck (clampCount deck count) idxs →
      (drawRandomCards deck count idxs).length = min count deck.length ∧
      (∀ x ∈ drawRandomCards deck count idxs, x ∈ deck) ∧
      (deck.Nodup → (drawRandomCards deck count idxs).Nodup) := by
    intro deck count idxs hv
    obtain ⟨hlen, hnd, hb⟩ := hv
    have hid : idxs.take (clampCount deck count) = idxs :=
      List.take_of_length_le (by omega)
    refine ⟨?_, ?_, ?_⟩
    · rw [drawRandomCards, hid, sampleByIdx_length hb, hlen, clampCount_eq_min]
    · rw [drawRandomCards, hid]
      exact fun x hx => sampleByIdx_subset x hx
    · intro hdeck
      rw [drawRandomCards, hid]
      exact sampleByIdx_nodup hdeck hnd hb
  refine ⟨main, ?_⟩
  intro deck language idxs hdeck h3 hv
  have h := main deck 3 idxs hv
  refine ⟨?_, h.2.2 hdeck, h.2.1⟩
  have := h.1
  simp only [threeCardSpreadDraw]
  omega

/-- Two more sample cards so the witness deck has four distinct cards. -/
def magicianCard : Card :=
  { id := 1, nameEn := "The Magician", nameRu := "Маг", nameUk := "Маг" }

/-- The Moon sample card. -/
def moonCard : Card :=
  { id := 18, nameEn := "The Moon", nameRu := "Луна", nameUk := "Місяць" }

/-- Witness for C10: drawing indices 2, 0, 3 from a four-card deck gives
three distinct deck members. -/
theorem c10_draw_without_replacement_witness :
    (threeCardSpreadDraw [foolCard, sunCard, magicianCard, moonCard] "en"
        [2, 0, 3]).1.length = 3 ∧
    (threeCardSpreadDraw [foolCard, sunCard, magicianCard, moonCard] "en"
        [2, 0, 3]).1.Nodup ∧
    ∀ x ∈ (threeCardSpreadDraw [foolCard, sunCard, magicianCard, moonCard] "en"
        [2, 0, 3]).1, x ∈ [foolCard, sunCard, magicianCard, moonCard] :=
  c10_draw_without_replacement.2 [foolCard, sunCard, magicianCard, moonCard]
    "en" [2, 0, 3] (by decide) (by decide) (by decide)

end TarotBot
